import Mathlib

/-!
Shallow embedding of the mframe in-memory DataFrame store (Go).

Go maps are modelled as association lists (`List (κ × α)`); `mapSet`
replaces an existing binding in place or appends a new one, which fixes a
deterministic iteration order (Go's map order is unspecified).  Go
`float64` values are modelled as `Rat` (every float64 is a dyadic
rational and the order agrees), `time.Time` as `Int` (nanoseconds,
`Before`/`After` are `<`/`>`), and `uuid.UUID` row-ids as `Nat`.
`uuid.New()` and `time.Now()` are effects, so the model takes the minted
id and the current instant as explicit arguments.
-/

/-- Go `m[k]` lookup, `none` when the key is absent. -/
def mapFind? {κ α : Type} [DecidableEq κ] : List (κ × α) → κ → Option α
  | [], _ => none
  | p :: rest, k => if p.1 = k then some p.2 else mapFind? rest k

/-- Go `m[k] = v`: replace the binding in place, or append a new one. -/
def mapSet {κ α : Type} [DecidableEq κ] : List (κ × α) → κ → α → List (κ × α)
  | [], k, v => [(k, v)]
  | p :: rest, k, v => if p.1 = k then (k, v) :: rest else p :: mapSet rest k v

/-- Go `delete(m, k)`. -/
def mapDel {κ α : Type} [DecidableEq κ] : List (κ × α) → κ → List (κ × α)
  | [], _ => []
  | p :: rest, k => if p.1 = k then mapDel rest k else p :: mapDel rest k

/-- Go `KeyType` is an `int`; the zero value (0) is *not* one of the four
named constants, mirroring `keys[key] = d.Keys[key]` on a missing key. -/
abbrev KeyType := Int

def KT.String : KeyType := 1
def KT.Numeric : KeyType := 2
def KT.Boolean : KeyType := 3
def KT.Time : KeyType := 4

/-- A row-projection value: what `Insert` stores in `d.Data[id]`. -/
inductive Value : Type
  | str : String → Value
  | num : Rat → Value
  | bool : Bool → Value
  | time : Int → Value
deriving DecidableEq, Repr

/-- The committed type the classifier would request for a stored value. -/
def Value.kt : Value → KeyType
  | .str _ => KT.String
  | .num _ => KT.Numeric
  | .bool _ => KT.Boolean
  | .time _ => KT.Time

abbrev RowId := Nat

abbrev Row := List (String × Value)

/-- A dynamic Go value handed to `Insert`.  One constructor per dynamic
type that `index`'s `reflect`-based switch can observe; the constructor
name records the Go type string (`float32` is the reflect name — the
code's dead `case "float"` matches none of these). -/
inductive GoValue : Type
  | str : String → GoValue
  | float64 : Rat → GoValue
  | int64 : Int → GoValue
  | int : Int → GoValue
  | int8 : Int → GoValue
  | int16 : Int → GoValue
  | int32 : Int → GoValue
  | uint : Nat → GoValue
  | uint8 : Nat → GoValue
  | uint16 : Nat → GoValue
  | uint32 : Nat → GoValue
  | uint64 : Nat → GoValue
  | float32 : Rat → GoValue
  | bool : Bool → GoValue
  | uuid : String → GoValue
  | time : Int → GoValue
  | map : List (String × GoValue) → GoValue
  | list : List GoValue → GoValue
  | nil : GoValue

/-- The commitment `index` requests for a scalar dynamic value, `none`
for values it recurses into or skips (unhandled widths, `nil`). -/
def GoValue.reqKt : GoValue → Option KeyType
  | .str _ => some KT.String
  | .float64 _ => some KT.Numeric
  | .int64 _ => some KT.Numeric
  | .int _ => some KT.Numeric
  | .bool _ => some KT.Boolean
  | .uuid _ => some KT.String
  | .time _ => some KT.Time
  | _ => none

/-- Inner id-set of an index: Go `map[uuid.UUID]bool`. -/
abbrev IdSet := List (RowId × Bool)

abbrev KeysIndex := List (String × KeyType)
abbrev StringsIndex := List (String × List (String × IdSet))
abbrev NumericsIndex := List (String × List (Rat × IdSet))
abbrev BooleansIndex := List (String × List (Bool × IdSet))
abbrev TimesIndex := List (String × List (Int × IdSet))
abbrev ExpireAtIndex := List (RowId × Int)

/-- The DataFrame state.  `Locker`, the regex cache and the cleaner
channel are concurrency/caching artefacts with no bearing on the data
semantics and are left out; compiled regexes and CIDR parsing enter the
model as explicit oracles. -/
structure DataFrame : Type where
  Data : List (RowId × Row)
  Keys : KeysIndex
  Strings : StringsIndex
  Numerics : NumericsIndex
  Booleans : BooleansIndex
  Times : TimesIndex
  ExpireAt : ExpireAtIndex
  TTL : Int
  Version : Int
deriving DecidableEq, Repr

/-- `Init`: empty indexes, the given TTL, persistence version 1. -/
def DataFrame.Init (ttl : Int) : DataFrame :=
  { Data := [], Keys := [], Strings := [], Numerics := [], Booleans := []
    Times := [], ExpireAt := [], TTL := ttl, Version := 1 }

/-- `addMapping`: commit `keyName` at `keyType`, erroring when a
different commitment already exists. -/
def DataFrame.addMapping (d : DataFrame) (keyName : String) (keyType : KeyType) :
    Except String DataFrame :=
  match mapFind? d.Keys keyName with
  | some k =>
    if k ≠ keyType then .error "cannot map key: already mapped as different type"
    else .ok { d with Keys := mapSet d.Keys keyName keyType }
  | none => .ok { d with Keys := mapSet d.Keys keyName keyType }

/-- `num`: commit as Numeric, project into the row, index under
`(keyName, value)`.  A commitment conflict is logged and the field
dropped. -/
def DataFrame.num (d : DataFrame) (keyName : String) (value : Rat) (id : RowId)
    (row : Row) : DataFrame × Row :=
  match d.addMapping keyName KT.Numeric with
  | .error _ => (d, row)
  | .ok d1 =>
    let row1 := mapSet row keyName (Value.num value)
    let inner := (mapFind? d1.Numerics keyName).getD []
    let ids := (mapFind? inner value).getD []
    ({ d1 with Numerics := mapSet d1.Numerics keyName (mapSet inner value (mapSet ids id true)) },
     row1)

mutual

/-- The loop body of `index` over the key/value pairs of one (possibly
nested) map, with `wrapKey` the dot-joined prefix. -/
def indexKVs (d : DataFrame) (kvs : List (String × GoValue)) (wrapKey : String)
    (id : RowId) (row : Row) : DataFrame × Row :=
  match kvs with
  | [] => (d, row)
  | (k, v) :: rest =>
    let p := indexOne d wrapKey k v id row
    indexKVs p.1 rest wrapKey id p.2

/-- One arm of `index`'s switch on the reflect type string of `v`.
Unhandled dynamic types (`int8`…`uint64`, `float32` — reflect reports
"float32", so the code's `case "float"` is dead — and `nil`) fall to the
default, are logged as "unknown field type" and skipped. -/
def indexOne (d : DataFrame) (wrapKey k : String) (v : GoValue) (id : RowId)
    (row : Row) : DataFrame × Row :=
  let kvKey := if wrapKey = "" then k else wrapKey ++ "." ++ k
  match v with
  | .map m => indexKVs d m kvKey id row
  | .list l => indexListElems d l 0 kvKey id row
  | .str s =>
    match d.addMapping kvKey KT.String with
    | .error _ => (d, row)
    | .ok d1 =>
      let row1 := mapSet row kvKey (Value.str s)
      let inner := (mapFind? d1.Strings kvKey).getD []
      let ids := (mapFind? inner s).getD []
      ({ d1 with Strings := mapSet d1.Strings kvKey (mapSet inner s (mapSet ids id true)) },
       row1)
  | .float64 x => d.num kvKey x id row
  | .int64 n => d.num kvKey (n : Rat) id row
  | .int n => d.num kvKey (n : Rat) id row
  | .bool b =>
    match d.addMapping kvKey KT.Boolean with
    | .error _ => (d, row)
    | .ok d1 =>
      let row1 := mapSet row kvKey (Value.bool b)
      let inner := (mapFind? d1.Booleans kvKey).getD []
      let ids := (mapFind? inner b).getD []
      ({ d1 with Booleans := mapSet d1.Booleans kvKey (mapSet inner b (mapSet ids id true)) },
       row1)
  | .uuid s =>
    match d.addMapping kvKey KT.String with
    | .error _ => (d, row)
    | .ok d1 =>
      let row1 := mapSet row kvKey (Value.str s)
      let inner := (mapFind? d1.Strings kvKey).getD []
      let ids := (mapFind? inner s).getD []
      ({ d1 with Strings := mapSet d1.Strings kvKey (mapSet inner s (mapSet ids id true)) },
       row1)
  | .time t =>
    match d.addMapping kvKey KT.Time with
    | .error _ => (d, row)
    | .ok d1 =>
      let inner := (mapFind? d1.Times kvKey).getD []
      let ids := (mapFind? inner t).getD []
      ({ d1 with Times := mapSet d1.Times kvKey (mapSet inner t (mapSet ids id true)) },
       row)
  | _ => (d, row)

/-- The `[]interface {}` arm: each element is wrapped as a one-pair map
keyed by its decimal position and re-dispatched. -/
def indexListElems (d : DataFrame) (l : List GoValue) (i : Nat) (kvKey : String)
    (id : RowId) (row : Row) : DataFrame × Row :=
  match l with
  | [] => (d, row)
  | x :: rest =>
    let p := indexOne d kvKey (toString i) x id row
    indexListElems p.1 rest (i + 1) kvKey id p.2

end

/-- `Insert`: flatten/index `data` into a fresh row projection under the
minted `id`, then install the projection and the expiry instant. -/
def DataFrame.Insert (d : DataFrame) (id : RowId) (now : Int)
    (data : List (String × GoValue)) : DataFrame :=
  let p := indexKVs d data "" id []
  { p.1 with
    Data := mapSet p.1.Data id p.2
    ExpireAt := mapSet p.1.ExpireAt id (now + d.TTL) }

/-- One typed index with `id` discarded from every id-set and empty
id-sets and empty inner maps removed (the `RemoveElement` walk). -/
def removeIdIndex {κ : Type} [DecidableEq κ]
    (idx : List (String × List (κ × IdSet))) (id : RowId) :
    List (String × List (κ × IdSet)) :=
  (idx.map (fun f =>
    (f.1, (f.2.map (fun p => (p.1, mapDel p.2 id))).filter (fun p => p.2.length ≠ 0)))).filter
    (fun f => f.2.length ≠ 0)

/-- `RemoveElement`: drop the row from `Data`/`ExpireAt`, walk the
Strings, Numerics and Booleans indexes removing the id and empty maps,
and delete every `Keys` entry not seen in those three walks.  The
`Times` index is not walked and does not feed `keysInUse` — this mirrors
the source exactly. -/
def DataFrame.RemoveElement (d : DataFrame) (id : RowId) : DataFrame :=
  let newData := mapDel d.Data id
  let newExpireAt := mapDel d.ExpireAt id
  let newStrings := removeIdIndex d.Strings id
  let newNumerics := removeIdIndex d.Numerics id
  let newBooleans := removeIdIndex d.Booleans id
  let keysInUse :=
    newStrings.map Prod.fst ++ newNumerics.map Prod.fst ++ newBooleans.map Prod.fst
  let newKeys := d.Keys.filter (fun kv => keysInUse.contains kv.1)
  { d with
    Data := newData, ExpireAt := newExpireAt, Strings := newStrings
    Numerics := newNumerics, Booleans := newBooleans, Keys := newKeys }

/-- `Count`: `len(d.Data)`. -/
def DataFrame.Count (d : DataFrame) : Nat := d.Data.length

/-- `CountUnique`: bucket every row of `Data` by its value for `field`;
`v[field]` on a row lacking the field is Go's `nil`, modelled as
`none`. -/
def DataFrame.CountUnique (d : DataFrame) (field : String) :
    List (Option Value × Nat) :=
  d.Data.foldl (fun count p =>
    let v := mapFind? p.2 field
    match mapFind? count v with
    | none => mapSet count v 1
    | some n => mapSet count v (n + 1)) []

/-- The Go `Operator` constants (`Greater` etc. are aliases of the
deprecated `Major` names — same constant, same constructor). -/
inductive Operator : Type
  | Equals | NotEquals | Major | Minor | MajorEquals | MinorEquals
  | InList | NotInList | RegExp | NotRegExp | InCIDR | NotInCIDR
  | Contains | NotContains | StartsWith | NotStartsWith | EndsWith | NotEndsWith
  | Between | NotBetween
deriving DecidableEq, Repr

inductive FilterOption : Type
  | CaseSensitive
deriving DecidableEq, Repr

/-- The dynamic `value any` argument of `Filter`, one constructor per
shape the type assertions can observe. -/
inductive FilterValue : Type
  | str : String → FilterValue
  | float64 : Rat → FilterValue
  | bool : Bool → FilterValue
  | floats : List Rat → FilterValue
  | strs : List String → FilterValue
  | times : List Int → FilterValue
deriving DecidableEq, Repr

/-- External-library behaviour entering `Filter`: `getCompiledRegex`
(compile failure is `none`) and `net.ParseCIDR` + `Contains`
(parse failure is `none`; an unparsable indexed IP makes the matcher
return `false`). -/
structure FilterOracles : Type where
  regex : String → Option (String → Bool)
  cidr : String → Option (String → Bool)

def EqualsF {α : Type} [DecidableEq α] (left right : α) : Bool := left = right

def GreaterThanF (left right : Rat) : Bool := left > right

def InListF {α : Type} [DecidableEq α] (value : α) (list : List α) : Bool :=
  list.contains value

def ContainsF (value substring : String) : Bool :=
  (List.range (value.length + 1)).any
    (fun i => substring.toList.isPrefixOf (value.toList.drop i))

def HasPrefixF (value pre : String) : Bool :=
  pre.toList.isPrefixOf value.toList

def HasSuffixF (value suf : String) : Bool :=
  suf.toList.isSuffixOf value.toList

/-- `Filter` treats the key as a regex pattern when it contains `^`, `[`
or `(`. -/
def isPatternKey (key : String) : Bool :=
  ContainsF key "^" || ContainsF key "[" || ContainsF key "("

/-- Case-insensitive mode: the `CaseSensitive` option is present and
`false`. -/
def caseInsensitive (options : List (FilterOption × Bool)) : Bool :=
  match mapFind? options FilterOption.CaseSensitive with
  | some sensitive => !sensitive
  | none => false

/-- The row `d.Data[id]`; a missing id is Go's nil map (empty row). -/
def rowAt (d : DataFrame) (id : RowId) : Row :=
  (mapFind? d.Data id).getD []

/-- A stored projection value handed back to `Insert` by
`results.Insert(d.Data[id])` (and by `Append`) re-enters as the dynamic
Go value it is stored as. -/
def Value.toGo : Value → GoValue
  | .str s => .str s
  | .num x => .float64 x
  | .bool b => .bool b
  | .time t => .time t

def Row.toGoData (r : Row) : List (String × GoValue) :=
  r.map (fun p => (p.1, p.2.toGo))

/-- `results.Insert(d.Data[id])` for each id of an id-set, minting the
next fresh row-id each time (the model's stand-in for `uuid.New()`). -/
def insertIds (src : DataFrame) (now : Int) (ids : IdSet) (acc : DataFrame) :
    DataFrame :=
  ids.foldl (fun a p => a.Insert a.Data.length now (Row.toGoData (rowAt src p.1))) acc

/-- Scan of one inner value → id-set mapping, copying the id-sets of the
values accepted by `pred`. -/
def bucketsInsert {κ : Type} (src : DataFrame) (now : Int) (pred : κ → Bool)
    (buckets : List (κ × IdSet)) (acc : DataFrame) : DataFrame :=
  buckets.foldl (fun a b => if pred b.1 then insertIds src now b.2 a else a) acc

/-- Evaluation of one resolved `(field, committed type)` pair inside
`Filter`'s loop.  `.error r` models the `return results` a failed type
assertion performs (aborting the whole loop with the rows gathered so
far); `.ok r` continues with the next field. -/
def filterOneKey (d : DataFrame) (oracles : FilterOracles) (now : Int)
    (operator : Operator) (value : FilterValue)
    (options : List (FilterOption × Bool)) (dataFrameKey : String)
    (keyType : KeyType) (results : DataFrame) : Except DataFrame DataFrame :=
  if keyType = KT.Numeric then
    match operator with
    | .Equals =>
      match value with
      | .float64 x =>
        match mapFind? ((mapFind? d.Numerics dataFrameKey).getD []) x with
        | some ids => .ok (insertIds d now ids results)
        | none => .ok results
      | _ => .error results
    | .NotEquals =>
      match value with
      | .float64 x =>
        .ok (bucketsInsert d now (fun kv => !EqualsF kv x)
          ((mapFind? d.Numerics dataFrameKey).getD []) results)
      | _ => .error results
    | .Major =>
      match value with
      | .float64 x =>
        .ok (bucketsInsert d now (fun kv => GreaterThanF kv x)
          ((mapFind? d.Numerics dataFrameKey).getD []) results)
      | _ => .error results
    | .Minor =>
      match value with
      | .float64 x =>
        .ok (bucketsInsert d now (fun kv => GreaterThanF x kv)
          ((mapFind? d.Numerics dataFrameKey).getD []) results)
      | _ => .error results
    | .MajorEquals =>
      match value with
      | .float64 x =>
        .ok (bucketsInsert d now (fun kv => EqualsF kv x || GreaterThanF kv x)
          ((mapFind? d.Numerics dataFrameKey).getD []) results)
      | _ => .error results
    | .MinorEquals =>
      match value with
      | .float64 x =>
        .ok (bucketsInsert d now (fun kv => EqualsF kv x || !GreaterThanF kv x)
          ((mapFind? d.Numerics dataFrameKey).getD []) results)
      | _ => .error results
    | .InList =>
      match value with
      | .floats xs =>
        .ok (bucketsInsert d now (fun kv => InListF kv xs)
          ((mapFind? d.Numerics dataFrameKey).getD []) results)
      | _ => .error results
    | .NotInList =>
      match value with
      | .floats xs =>
        .ok (bucketsInsert d now (fun kv => !InListF kv xs)
          ((mapFind? d.Numerics dataFrameKey).getD []) results)
      | _ => .error results
    | .Between =>
      match value with
      | .floats [lo, hi] =>
        let mn := if lo > hi then hi else lo
        let mx := if lo > hi then lo else hi
        .ok (bucketsInsert d now (fun kv => !(kv < mn || kv > mx))
          ((mapFind? d.Numerics dataFrameKey).getD []) results)
      | _ => .error results
    | .NotBetween =>
      match value with
      | .floats [lo, hi] =>
        let mn := if lo > hi then hi else lo
        let mx := if lo > hi then lo else hi
        .ok (bucketsInsert d now (fun kv => !(kv ≥ mn && kv ≤ mx))
          ((mapFind? d.Numerics dataFrameKey).getD []) results)
      | _ => .error results
    | _ => .ok results
  else if keyType = KT.String then
    match operator with
    | .Equals =>
      match value with
      | .str s =>
        .ok (bucketsInsert d now (fun kv =>
            if caseInsensitive options then EqualsF kv.toLower s.toLower
            else EqualsF kv s)
          ((mapFind? d.Strings dataFrameKey).getD []) results)
      | _ => .error results
    | .NotEquals =>
      match value with
      | .str s =>
        .ok (bucketsInsert d now (fun kv =>
            if caseInsensitive options then !EqualsF kv.toLower s.toLower
            else !EqualsF kv s)
          ((mapFind? d.Strings dataFrameKey).getD []) results)
      | _ => .error results
    | .RegExp =>
      match value with
      | .str s =>
        match oracles.regex s with
        | some re =>
          .ok (bucketsInsert d now (fun kv => re kv)
            ((mapFind? d.Strings dataFrameKey).getD []) results)
        | none => .ok results
      | _ => .error results
    | .NotRegExp =>
      match value with
      | .str s =>
        match oracles.regex s with
        | some re =>
          .ok (bucketsInsert d now (fun kv => !re kv)
            ((mapFind? d.Strings dataFrameKey).getD []) results)
        | none => .ok results
      | _ => .error results
    | .InList =>
      match value with
      | .strs xs =>
        .ok (bucketsInsert d now (fun kv =>
            if caseInsensitive options then
              InListF kv.toLower (xs.map String.toLower)
            else InListF kv xs)
          ((mapFind? d.Strings dataFrameKey).getD []) results)
      | _ => .error results
    | .NotInList =>
      match value with
      | .strs xs =>
        .ok (bucketsInsert d now (fun kv =>
            if caseInsensitive options then
              !InListF kv.toLower (xs.map String.toLower)
            else !InListF kv xs)
          ((mapFind? d.Strings dataFrameKey).getD []) results)
      | _ => .error results
    | .InCIDR =>
      match value with
      | .str s =>
        .ok (bucketsInsert d now (fun kv =>
            match oracles.cidr s with
            | some m => m kv
            | none => false)
          ((mapFind? d.Strings dataFrameKey).getD []) results)
      | _ => .error results
    | .NotInCIDR =>
      match value with
      | .str s =>
        .ok (bucketsInsert d now (fun kv =>
            match oracles.cidr s with
            | some m => !m kv
            | none => false)
          ((mapFind? d.Strings dataFrameKey).getD []) results)
      | _ => .error results
    | .Contains =>
      match value with
      | .str s =>
        .ok (bucketsInsert d now (fun kv =>
            if caseInsensitive options then ContainsF kv.toLower s.toLower
            else ContainsF kv s)
          ((mapFind? d.Strings dataFrameKey).getD []) results)
      | _ => .error results
    | .NotContains =>
      match value with
      | .str s =>
        .ok (bucketsInsert d now (fun kv =>
            if caseInsensitive options then !ContainsF kv.toLower s.toLower
            else !ContainsF kv s)
          ((mapFind? d.Strings dataFrameKey).getD []) results)
      | _ => .error results
    | .StartsWith =>
      match value with
      | .str s =>
        .ok (bucketsInsert d now (fun kv =>
            if caseInsensitive options then HasPrefixF kv.toLower s.toLower
            else HasPrefixF kv s)
          ((mapFind? d.Strings dataFrameKey).getD []) results)
      | _ => .error results
    | .NotStartsWith =>
      match value with
      | .str s =>
        .ok (bucketsInsert d now (fun kv =>
            if caseInsensitive options then !HasPrefixF kv.toLower s.toLower
            else !HasPrefixF kv s)
          ((mapFind? d.Strings dataFrameKey).getD []) results)
      | _ => .error results
    | .EndsWith =>
      match value with
      | .str s =>
        .ok (bucketsInsert d now (fun kv =>
            if caseInsensitive options then HasSuffixF kv.toLower s.toLower
            else HasSuffixF kv s)
          ((mapFind? d.Strings dataFrameKey).getD []) results)
      | _ => .error results
    | .NotEndsWith =>
      match value with
      | .str s =>
        .ok (bucketsInsert d now (fun kv =>
            if caseInsensitive options then !HasSuffixF kv.toLower s.toLower
            else !HasSuffixF kv s)
          ((mapFind? d.Strings dataFrameKey).getD []) results)
      | _ => .error results
    | _ => .ok results
  else if keyType = KT.Boolean then
    match value with
    | .bool b =>
      match operator with
      | .Equals =>
        match mapFind? ((mapFind? d.Booleans dataFrameKey).getD []) b with
        | some ids => .ok (insertIds d now ids results)
        | none => .ok results
      | .NotEquals =>
        .ok (bucketsInsert d now (fun kv => !EqualsF b kv)
          ((mapFind? d.Booleans dataFrameKey).getD []) results)
      | _ => .ok results
    | _ => .error results
  else if keyType = KT.Time then
    match operator with
    | .Between =>
      match value with
      | .times [t0, t1] =>
        let startTime := if t0 > t1 then t1 else t0
        let endTime := if t0 > t1 then t0 else t1
        .ok (bucketsInsert d now (fun kv => !(kv < startTime || kv > endTime))
          ((mapFind? d.Times dataFrameKey).getD []) results)
      | _ => .error results
    | .NotBetween =>
      match value with
      | .times [t0, t1] =>
        let startTime := if t0 > t1 then t1 else t0
        let endTime := if t0 > t1 then t0 else t1
        .ok (bucketsInsert d now (fun kv => !(!(kv < startTime) && !(kv > endTime)))
          ((mapFind? d.Times dataFrameKey).getD []) results)
      | _ => .error results
    | _ => .ok results
  else
    .ok results

/-- The loop over the resolved keys; a `.error` from a failed type
assertion returns the partial results immediately. -/
def filterKeys (d : DataFrame) (oracles : FilterOracles) (now : Int)
    (operator : Operator) (value : FilterValue)
    (options : List (FilterOption × Bool)) :
    List (String × KeyType) → DataFrame → DataFrame
  | [], results => results
  | kt :: rest, results =>
    match filterOneKey d oracles now operator value options kt.1 kt.2 results with
    | .error r => r
    | .ok r => filterKeys d oracles now operator value options rest r

/-- `Filter`: resolve the key (literal, or regex pattern over committed
field names when it contains `^`, `[` or `(`; a literal miss yields the
`KeyType` zero value 0, which matches no typed branch), then evaluate
each resolved field against its typed index, inserting matching source
rows into a fresh result store initialised with the source's TTL. -/
def DataFrame.Filter (d : DataFrame) (oracles : FilterOracles) (now : Int)
    (operator : Operator) (key : String) (value : FilterValue)
    (options : List (FilterOption × Bool)) : DataFrame :=
  let keys : List (String × KeyType) :=
    if isPatternKey key then
      match oracles.regex key with
      | some re => d.Keys.filter (fun p => re p.1)
      | none => []
    else
      [(key, (mapFind? d.Keys key).getD 0)]
  let results := DataFrame.Init d.TTL
  filterKeys d oracles now operator value options keys results

/-- `Append`: for each row of `df`, set `value["key"] = key` — this
writes into the *source* row map — then `d.Insert(value)`.  Returns the
destination and the (mutated) source. -/
def DataFrame.Append (d df : DataFrame) (key : String) (now : Int) :
    DataFrame × DataFrame :=
  let step := fun (acc : DataFrame × List (RowId × Row)) (p : RowId × Row) =>
    let value := mapSet p.2 "key" (Value.str key)
    (acc.1.Insert acc.1.Data.length now (Row.toGoData value), acc.2 ++ [(p.1, value)])
  let r := df.Data.foldl step (d, [])
  (r.1, { df with Data := r.2 })

/-- The gob snapshot (`persistentDataFrame`) after a successful decode;
the regex-pattern list is cache state and out of the data model. -/
structure PersistentDataFrame : Type where
  Version : Int
  Data : List (RowId × Row)
  Keys : KeysIndex
  Strings : StringsIndex
  Numerics : NumericsIndex
  Booleans : BooleansIndex
  Times : TimesIndex
  ExpireAt : ExpireAtIndex
  TTL : Int
deriving DecidableEq, Repr

/-- `LoadFromReader` (the shared logic of `LoadFromFile`,
`LoadFromFileCompressed` and `LoadFromReader` after a successful gob
decode): reject a snapshot whose version exceeds the runtime's, else
install every persisted component.  On the error path the receiver has
not been touched, which the model renders by returning no state. -/
def DataFrame.LoadFromReader (d : DataFrame) (pdf : PersistentDataFrame) :
    Except String DataFrame :=
  if pdf.Version > d.Version then
    .error "unsupported file version"
  else
    .ok { d with
      Data := pdf.Data, Keys := pdf.Keys, Strings := pdf.Strings
      Numerics := pdf.Numerics, Booleans := pdf.Booleans, Times := pdf.Times
      ExpireAt := pdf.ExpireAt, TTL := pdf.TTL }

/-- The JSON snapshot (`jsonDataFrame`) after a successful decode.  Row
ids arrive pre-parsed (an unparsable row id fails the import; an
unparsable `expire_at` entry is skipped — both orthogonal to the claims
and elided); `TTL` keeps its textual form. -/
structure JsonDataFrame : Type where
  Version : Int
  Data : List (RowId × List (String × GoValue))
  Keys : List (String × Int)
  ExpireAt : List (RowId × Int)
  TTL : String

/-- The per-field conversion loop of `ImportFromJSON`: a string value of
a field whose recorded type is `Time` is re-parsed to an instant;
`String` fields keep their text verbatim; everything else passes
through. -/
def convertRow (keys : KeysIndex) (parseTime : String → Option Int) :
    List (String × GoValue) → List (String × GoValue)
  | [] => []
  | (k, v) :: rest =>
    let v1 :=
      match mapFind? keys k with
      | some kt =>
        if kt = KT.Time then
          match v with
          | GoValue.str s =>
            match parseTime s with
            | some t => GoValue.time t
            | none => v
          | _ => v
        else v
      | none => v
    (k, v1) :: convertRow keys parseTime rest

/-- `ImportFromJSON` after a successful JSON decode: version check,
TTL parse, clear the store, restore `Keys`, then rebuild every typed
index by pushing each converted row back through `index`. -/
def DataFrame.ImportFromJSON (d : DataFrame)
    (parseDuration : String → Option Int) (parseTime : String → Option Int)
    (jdf : JsonDataFrame) : Except String DataFrame :=
  if jdf.Version > d.Version then
    .error "unsupported file version"
  else
    match parseDuration jdf.TTL with
    | none => .error "failed to parse TTL"
    | some ttl =>
      let d0 : DataFrame :=
        { d with
          Data := [], Keys := jdf.Keys, Strings := [], Numerics := []
          Booleans := [], Times := [], ExpireAt := [], TTL := ttl }
      let d1 := jdf.Data.foldl (fun acc p =>
        let q := indexKVs acc (convertRow acc.Keys parseTime p.2) "" p.1 []
        { q.1 with Data := mapSet q.1.Data p.1 q.2 }) d0
      .ok { d1 with ExpireAt := jdf.ExpireAt }

/-! ### Well-formedness of stores and generic lemmas -/

/-- A row projection consistent with a keys index: no duplicate field,
every field committed at its value's variant, and no `Time`-variant
value (the `time.Time` arm of `index` deliberately indexes without
projecting, so reachable projections never hold instants). -/
def RowOk (keys : KeysIndex) (r : Row) : Prop :=
  (r.map Prod.fst).Nodup ∧
    ∀ p ∈ r, mapFind? keys p.1 = some (Value.kt p.2) ∧ Value.kt p.2 ≠ KT.Time

/-- Every row of the store is consistent with its keys index. -/
def WellFormed (d : DataFrame) : Prop := ∀ p ∈ d.Data, RowOk d.Keys p.2

instance (keys : KeysIndex) (r : Row) : Decidable (RowOk keys r) := by
  unfold RowOk; infer_instance

instance (d : DataFrame) : Decidable (WellFormed d) := by
  unfold WellFormed; infer_instance

/-- The row-ids minted so far are exactly `0, …, len-1` (the model's
fresh-id discipline standing in for `uuid.New()` uniqueness). -/
def SeqIds (d : DataFrame) : Prop := d.Data.map Prod.fst = List.range d.Data.length

/-- Every commitment of `a` also stands in `K`. -/
def KeysLe (a K : KeysIndex) : Prop :=
  ∀ k t, mapFind? a k = some t → mapFind? K k = some t

theorem mapFind?_mapSet_self {κ α : Type} [DecidableEq κ] (l : List (κ × α))
    (k : κ) (v : α) : mapFind? (mapSet l k v) k = some v := by
  induction l with
  | nil => simp [mapSet, mapFind?]
  | cons p rest ih =>
    by_cases h : p.1 = k <;> simp [mapSet, mapFind?, h, ih]

theorem mapFind?_mapSet_ne {κ α : Type} [DecidableEq κ] (l : List (κ × α))
    (k k' : κ) (v : α) (h : k' ≠ k) :
    mapFind? (mapSet l k v) k' = mapFind? l k' := by
  induction l with
  | nil => simp [mapSet, mapFind?, Ne.symm h]
  | cons p rest ih =>
    by_cases hp : p.1 = k
    · simp [mapSet, hp, mapFind?, Ne.symm h]
    · simp only [mapSet, hp, if_false, mapFind?]
      by_cases hp' : p.1 = k' <;> simp [hp', ih]

theorem mapFind?_eq_none {κ α : Type} [DecidableEq κ] (l : List (κ × α)) (k : κ)
    (h : k ∉ l.map Prod.fst) : mapFind? l k = none := by
  induction l with
  | nil => simp [mapFind?]
  | cons p rest ih =>
    simp only [List.map_cons, List.mem_cons] at h
    push_neg at h
    simp [mapFind?, Ne.symm h.1, ih h.2]

theorem mapFind?_mem {κ α : Type} [DecidableEq κ] (l : List (κ × α)) (k : κ)
    (v : α) (h : mapFind? l k = some v) : (k, v) ∈ l := by
  induction l with
  | nil => simp [mapFind?] at h
  | cons p rest ih =>
    by_cases hp : p.1 = k
    · simp only [mapFind?, hp, if_true, Option.some.injEq] at h
      cases p
      simp_all
    · simp only [mapFind?, hp, if_false] at h
      exact List.mem_cons_of_mem _ (ih h)

theorem mapSet_of_not_mem {κ α : Type} [DecidableEq κ] (l : List (κ × α))
    (k : κ) (v : α) (h : k ∉ l.map Prod.fst) : mapSet l k v = l ++ [(k, v)] := by
  induction l with
  | nil => simp [mapSet]
  | cons p rest ih =>
    simp only [List.map_cons, List.mem_cons] at h
    push_neg at h
    simp [mapSet, Ne.symm h.1, ih h.2]

theorem RowOk_nil (K : KeysIndex) : RowOk K [] := by
  constructor <;> simp

theorem RowOk_rowAt (d : DataFrame) (K : KeysIndex) (hK : d.Keys = K)
    (hwf : WellFormed d) (i : RowId) : RowOk K (rowAt d i) := by
  unfold rowAt
  cases hfind : mapFind? d.Data i with
  | none => exact RowOk_nil K
  | some r =>
    have := hwf (i, r) (mapFind?_mem _ _ _ hfind)
    simpa [hK] using this

/-- Indexing one scalar projection value: the row gets the field, `Keys`
gets the commitment, and `Data`/`TTL`/`Version` are untouched. -/
theorem indexOne_toGo (d : DataFrame) (k : String) (v : Value) (id : RowId)
    (row : Row)
    (hk : mapFind? d.Keys k = none ∨ mapFind? d.Keys k = some (Value.kt v))
    (ht : Value.kt v ≠ KT.Time) :
    (indexOne d "" k v.toGo id row).2 = mapSet row k v ∧
    (indexOne d "" k v.toGo id row).1.Keys = mapSet d.Keys k (Value.kt v) ∧
    (indexOne d "" k v.toGo id row).1.Data = d.Data ∧
    (indexOne d "" k v.toGo id row).1.TTL = d.TTL ∧
    (indexOne d "" k v.toGo id row).1.Version = d.Version := by
  cases v with
  | time t => exact absurd rfl ht
  | str s =>
    rcases hk with hk | hk <;>
      simp [indexOne, Value.toGo, DataFrame.addMapping, hk, Value.kt, KT.String]
  | num x =>
    rcases hk with hk | hk <;>
      simp [indexOne, Value.toGo, DataFrame.num, DataFrame.addMapping, hk,
        Value.kt, KT.Numeric]
  | bool b =>
    rcases hk with hk | hk <;>
      simp [indexOne, Value.toGo, DataFrame.addMapping, hk, Value.kt, KT.Boolean]

/-- Re-indexing a well-formed flat projection reproduces it verbatim:
the output row is the accumulator followed by the row's own fields, the
primary data is untouched, and every new commitment comes from one of
the row's fields. -/
theorem indexKVs_toGoData (r : Row) (d : DataFrame) (id : RowId) (row0 : Row)
    (hnd : (r.map Prod.fst).Nodup)
    (hdisj : ∀ p ∈ r, p.1 ∉ row0.map Prod.fst)
    (hty : ∀ p ∈ r,
      (mapFind? d.Keys p.1 = none ∨ mapFind? d.Keys p.1 = some (Value.kt p.2)) ∧
        Value.kt p.2 ≠ KT.Time) :
    (indexKVs d (Row.toGoData r) "" id row0).2 = row0 ++ r ∧
    (indexKVs d (Row.toGoData r) "" id row0).1.Data = d.Data ∧
    (indexKVs d (Row.toGoData r) "" id row0).1.TTL = d.TTL ∧
    (indexKVs d (Row.toGoData r) "" id row0).1.Version = d.Version ∧
    ∀ k t, mapFind? (indexKVs d (Row.toGoData r) "" id row0).1.Keys k = some t →
      mapFind? d.Keys k = some t ∨ ∃ p ∈ r, p.1 = k ∧ t = Value.kt p.2 := by
  induction r generalizing d row0 with
  | nil =>
    refine ⟨by simp [Row.toGoData, indexKVs], by simp [Row.toGoData, indexKVs],
      by simp [Row.toGoData, indexKVs], by simp [Row.toGoData, indexKVs], ?_⟩
    intro k t h
    simp only [Row.toGoData, List.map_nil, indexKVs] at h
    exact Or.inl h
  | cons p rest ih =>
    obtain ⟨k, v⟩ := p
    have hhead := hty (k, v) (by simp)
    have hstep := indexOne_toGo d k v id row0 hhead.1 hhead.2
    have hrow0 : mapSet row0 k v = row0 ++ [(k, v)] :=
      mapSet_of_not_mem _ _ _ (hdisj (k, v) (by simp))
    have hnd' : (rest.map Prod.fst).Nodup := (List.nodup_cons.mp hnd).2
    have hknotin : k ∉ rest.map Prod.fst := (List.nodup_cons.mp hnd).1
    set d1 := (indexOne d "" k v.toGo id row0).1 with hd1
    have hdisj' : ∀ q ∈ rest, q.1 ∉ (row0 ++ [(k, v)]).map Prod.fst := by
      intro q hq
      simp only [List.map_append, List.mem_append, List.map_cons, List.map_nil,
        List.mem_cons]
      push_neg
      refine ⟨hdisj q (List.mem_cons_of_mem _ hq), ?_, by simp⟩
      intro hqk
      exact hknotin (hqk ▸ List.mem_map_of_mem Prod.fst hq)
    have hty' : ∀ q ∈ rest,
        (mapFind? d1.Keys q.1 = none ∨
          mapFind? d1.Keys q.1 = some (Value.kt q.2)) ∧ Value.kt q.2 ≠ KT.Time := by
      intro q hq
      have hqk : q.1 ≠ k := by
        intro hqk
        exact hknotin (hqk ▸ List.mem_map_of_mem Prod.fst hq)
      have := (hty q (List.mem_cons_of_mem _ hq))
      rw [hstep.2.1] at *
      refine ⟨?_, this.2⟩
      rw [mapFind?_mapSet_ne _ _ _ _ hqk]
      exact this.1
    have hih := ih d1 (row0 ++ [(k, v)]) hnd' hdisj' hty'
    have hunf : indexKVs d (Row.toGoData ((k, v) :: rest)) "" id row0 =
        indexKVs d1 (Row.toGoData rest) "" id (row0 ++ [(k, v)]) := by
      simp only [Row.toGoData, List.map_cons, indexKVs]
      rw [hstep.1, hrow0]
    rw [hunf]
    refine ⟨by rw [hih.1]; simp, by rw [hih.2.1, hstep.2.2.1],
      by rw [hih.2.2.1, hstep.2.2.2.1], by rw [hih.2.2.2.1, hstep.2.2.2.2], ?_⟩
    intro k' t hfound
    rcases hih.2.2.2.2 k' t hfound with hleft | ⟨q, hq, hq1, hq2⟩
    · rw [hstep.2.1] at hleft
      by_cases hkk : k' = k
      · subst hkk
        rw [mapFind?_mapSet_self] at hleft
        exact Or.inr ⟨(k', v), by simp, rfl, (Option.some.injEq _ _).mp hleft.symm⟩
      · rw [mapFind?_mapSet_ne _ _ _ _ hkk] at hleft
        exact Or.inl hleft
    · exact Or.inr ⟨q, List.mem_cons_of_mem _ hq, hq1, hq2⟩

/-- `Insert` of a well-formed flat projection under the next fresh id:
the projection is appended to `Data` verbatim, and the fresh-id and
keys disciplines are preserved. -/
theorem Insert_fresh (K : KeysIndex) (acc : DataFrame) (r : Row) (now : Int)
    (hseq : SeqIds acc) (hK : KeysLe acc.Keys K) (hr : RowOk K r) :
    (acc.Insert acc.Data.length now (Row.toGoData r)).Data =
      acc.Data ++ [(acc.Data.length, r)] ∧
    SeqIds (acc.Insert acc.Data.length now (Row.toGoData r)) ∧
    KeysLe (acc.Insert acc.Data.length now (Row.toGoData r)).Keys K ∧
    (acc.Insert acc.Data.length now (Row.toGoData r)).TTL = acc.TTL := by
  have hty : ∀ p ∈ r,
      (mapFind? acc.Keys p.1 = none ∨
        mapFind? acc.Keys p.1 = some (Value.kt p.2)) ∧ Value.kt p.2 ≠ KT.Time := by
    intro p hp
    refine ⟨?_, (hr.2 p hp).2⟩
    cases hc : mapFind? acc.Keys p.1 with
    | none => exact Or.inl rfl
    | some t =>
      right
      have h1 := hK p.1 t hc
      have h2 := (hr.2 p hp).1
      rw [h2] at h1
      exact h1.symm
  have hmain := indexKVs_toGoData r acc (acc.Data.length) [] hr.1 (by simp) hty
  have hfresh : acc.Data.length ∉ acc.Data.map Prod.fst := by
    rw [hseq]
    simp
  have hD : (acc.Insert acc.Data.length now (Row.toGoData r)).Data =
      acc.Data ++ [(acc.Data.length, r)] := by
    show mapSet (indexKVs acc (Row.toGoData r) "" acc.Data.length []).1.Data
      acc.Data.length (indexKVs acc (Row.toGoData r) "" acc.Data.length []).2 =
      acc.Data ++ [(acc.Data.length, r)]
    rw [hmain.2.1, hmain.1, mapSet_of_not_mem _ _ _ hfresh]
    simp
  refine ⟨hD, ?_, ?_, ?_⟩
  · unfold SeqIds
    rw [hD]
    simp only [List.map_append, List.length_append, List.map_cons, List.map_nil,
      List.length_cons, List.length_nil]
    rw [hseq]
    simp [List.range_succ]
  · intro k t hfind
    have : mapFind? (indexKVs acc (Row.toGoData r) "" acc.Data.length []).1.Keys k
        = some t := hfind
    rcases hmain.2.2.2.2 k t this with hleft | ⟨q, hq, hq1, hq2⟩
    · exact hK k t hleft
    · subst hq1 hq2
      exact (hr.2 q hq).1
  · show (indexKVs acc (Row.toGoData r) "" acc.Data.length []).1.TTL = acc.TTL
    exact hmain.2.2.1

/-- `insertIds` appends one copy of each listed row to the result. -/
theorem insertIds_spec (K : KeysIndex) (src : DataFrame) (now : Int)
    (ids : IdSet) (acc : DataFrame) (hseq : SeqIds acc) (hK : KeysLe acc.Keys K)
    (hrows : ∀ i, RowOk K (rowAt src i)) :
    (insertIds src now ids acc).Data.map Prod.snd =
      acc.Data.map Prod.snd ++ ids.map (fun p => rowAt src p.1) ∧
    SeqIds (insertIds src now ids acc) ∧
    KeysLe (insertIds src now ids acc).Keys K ∧
    (insertIds src now ids acc).TTL = acc.TTL := by
  induction ids generalizing acc with
  | nil => exact ⟨by simp [insertIds], hseq, hK, rfl⟩
  | cons p rest ih =>
    have hstep := Insert_fresh K acc (rowAt src p.1) now hseq hK (hrows p.1)
    have hunf : insertIds src now (p :: rest) acc =
        insertIds src now rest
          (acc.Insert acc.Data.length now (Row.toGoData (rowAt src p.1))) := by
      simp [insertIds]
    rw [hunf]
    have hih := ih _ hstep.2.1 hstep.2.2.1
    refine ⟨?_, hih.2.1, hih.2.2.1, by rw [hih.2.2.2, hstep.2.2.2]⟩
    rw [hih.1, hstep.1]
    simp

/-- Scanning an inner value → id-set mapping copies, in order, every
id-set whose value the predicate accepts. -/
theorem bucketsInsert_spec {κ : Type} (K : KeysIndex) (src : DataFrame)
    (now : Int) (pred : κ → Bool) (buckets : List (κ × IdSet)) (acc : DataFrame)
    (hseq : SeqIds acc) (hK : KeysLe acc.Keys K)
    (hrows : ∀ i, RowOk K (rowAt src i)) :
    (bucketsInsert src now pred buckets acc).Data.map Prod.snd =
      acc.Data.map Prod.snd ++
        (buckets.filter (fun b => pred b.1)).flatMap
          (fun b => b.2.map (fun p => rowAt src p.1)) ∧
    SeqIds (bucketsInsert src now pred buckets acc) ∧
    KeysLe (bucketsInsert src now pred buckets acc).Keys K ∧
    (bucketsInsert src now pred buckets acc).TTL = acc.TTL := by
  induction buckets generalizing acc with
  | nil => exact ⟨by simp [bucketsInsert], hseq, hK, rfl⟩
  | cons b rest ih =>
    by_cases hb : pred b.1
    · have hunf : bucketsInsert src now pred (b :: rest) acc =
          bucketsInsert src now pred rest (insertIds src now b.2 acc) := by
        simp [bucketsInsert, hb]
      rw [hunf]
      have hstep := insertIds_spec K src now b.2 acc hseq hK hrows
      have hih := ih _ hstep.2.1 hstep.2.2.1
      refine ⟨?_, hih.2.1, hih.2.2.1, by rw [hih.2.2.2, hstep.2.2.2]⟩
      rw [hih.1, hstep.1]
      simp [hb]
    · have hunf : bucketsInsert src now pred (b :: rest) acc =
          bucketsInsert src now pred rest acc := by
        simp [bucketsInsert, hb]
      rw [hunf]
      have hih := ih _ hseq hK
      refine ⟨?_, hih.2.1, hih.2.2.1, hih.2.2.2⟩
      rw [hih.1]
      simp [hb]

/-! ### Claim theorems -/

/-- A `FilterOracles` bundle for calls whose key and operator consult no
regex and no CIDR. -/
def noRegex : FilterOracles := ⟨fun _ => none, fun _ => none⟩

/-- Oracle for the concrete pattern `"^a"`: Go's `regexp` matches it
against any string containing a position where `a` starts, i.e. any
field name with prefix `a` matches. -/
def prefixAOracle : FilterOracles :=
  ⟨fun p => if p = "^a" then some (fun s => HasPrefixF s "a") else none,
   fun _ => none⟩

/-- **C1 (code_bug evidence).** After `RemoveElement` of the only row —
a row carrying one `time.Time` field — the id is gone from `Data` and
`ExpireAt` and the three walked indexes are empty, but the `Times` index
still holds the removed id under the old value: the claim's "absent from
every id-set of all four typed indexes, no empty or stale structure
remains" fails because `RemoveElement` never walks `Times`. -/
theorem c1_remove_element_leaves_times_index :
    (((DataFrame.Init 60).Insert 1 0 [("t", GoValue.time 1000)]).RemoveElement 1) =
      { DataFrame.Init 60 with Times := [("t", [(1000, [(1, true)])])] } := by
  decide

/-- **C2 (code_bug evidence).** Store: row 1 carries time field `t`,
row 2 carries string field `s`.  Removing row 2 deletes the `Keys`
commitment of `t` even though row 1 still carries `t` (it remains in the
`Times` index): `keysInUse` is collected only from the Strings, Numerics
and Booleans walks, so every `Time`-committed field loses its commitment
on any removal. -/
theorem c2_remove_element_drops_live_time_commitment :
    (mapFind? (((DataFrame.Init 60).Insert 1 0 [("t", GoValue.time 5)]).Insert 2 0
      [("s", GoValue.str "x")]).Keys "t" = some KT.Time ∧
     mapFind? ((((DataFrame.Init 60).Insert 1 0 [("t", GoValue.time 5)]).Insert 2 0
      [("s", GoValue.str "x")]).RemoveElement 2).Data 1 = some [] ∧
     mapFind? ((mapFind? ((((DataFrame.Init 60).Insert 1 0
      [("t", GoValue.time 5)]).Insert 2 0
      [("s", GoValue.str "x")]).RemoveElement 2).Times "t").getD []) 5 =
      some [(1, true)]) ∧
    mapFind? ((((DataFrame.Init 60).Insert 1 0 [("t", GoValue.time 5)]).Insert 2 0
      [("s", GoValue.str "x")]).RemoveElement 2).Keys "t" = none := by
  decide

/-- **C4 (code_bug evidence).** `index` has cases only for the reflect
type strings "float64", "int64", "float" (dead: reflect reports
"float32") and "int": an `int8`, `float32` or `uint32` value hits the
default arm, is logged "unknown field type" and skipped — no `Keys`
commitment, no `Numerics` entry, no projection — while an `int` value
in the same row is indexed, contradicting the claim (and the
repository's own `TestNumericTypes`). -/
theorem c4_narrow_numeric_widths_are_skipped :
    ((((DataFrame.Init 60).Insert 1 0
      [("a", GoValue.int8 127), ("b", GoValue.float32 (157/50)),
       ("c", GoValue.uint32 7), ("n", GoValue.int 3)]).Keys =
        [("n", KT.Numeric)]) ∧
     (((DataFrame.Init 60).Insert 1 0
      [("a", GoValue.int8 127), ("b", GoValue.float32 (157/50)),
       ("c", GoValue.uint32 7), ("n", GoValue.int 3)]).Numerics =
        [("n", [(3, [(1, true)])])])) ∧
    rowAt ((DataFrame.Init 60).Insert 1 0
      [("a", GoValue.int8 127), ("b", GoValue.float32 (157/50)),
       ("c", GoValue.uint32 7), ("n", GoValue.int 3)]) 1 =
      [("n", Value.num 3)] := by
  decide

/-- **C3 counterexample.** One row matching the pattern `^a` through two
committed string fields `a1`, `a2` that both equal "x": the result store
holds the row twice (each copy under a fresh id), so "appears exactly
once" fails. -/
theorem c3_regex_key_duplicates_matching_row :
    ((DataFrame.Init 60).Insert 7 0
      [("a1", GoValue.str "x"), ("a2", GoValue.str "x")]).Count = 1 ∧
    (((DataFrame.Init 60).Insert 7 0
      [("a1", GoValue.str "x"), ("a2", GoValue.str "x")]).Filter prefixAOracle 0
      Operator.Equals "^a" (FilterValue.str "x") []).Count = 2 ∧
    (((DataFrame.Init 60).Insert 7 0
      [("a1", GoValue.str "x"), ("a2", GoValue.str "x")]).Filter prefixAOracle 0
      Operator.Equals "^a" (FilterValue.str "x") []).Data.map Prod.snd =
      [[("a1", Value.str "x"), ("a2", Value.str "x")],
       [("a1", Value.str "x"), ("a2", Value.str "x")]] := by
  decide

/-- **C7 counterexample.** `Append` executes `value["key"] = key` on the
*source* row map before re-inserting it: after the call the source
store's only row has gained the text field `key = "tag"`, so "the source
store is left unchanged" fails (its indexes and `Keys`, not being
updated, now disagree with the mutated row). -/
theorem c7_append_mutates_source_row :
    rowAt ((DataFrame.Init 60).Insert 1 0 [("a", GoValue.str "x")]) 1 =
      [("a", Value.str "x")] ∧
    ((DataFrame.Init 60).Append
      ((DataFrame.Init 60).Insert 1 0 [("a", GoValue.str "x")]) "tag" 0).2.Data ≠
      ((DataFrame.Init 60).Insert 1 0 [("a", GoValue.str "x")]).Data ∧
    rowAt ((DataFrame.Init 60).Append
      ((DataFrame.Init 60).Insert 1 0 [("a", GoValue.str "x")]) "tag" 0).2 1 =
      [("a", Value.str "x"), ("key", Value.str "tag")] := by
  decide

/-- **C5.** A field whose dynamic value conflicts with its existing
commitment is dropped as if it were not part of the inserted map at all
(`Insert` never fails, `Keys` keeps the old commitment, every other
field is processed normally, the row is installed); concretely, after
`Insert({f:"x"})` then `Insert({f:5})` the store has 2 rows,
`Filter(Equals,f,"x")` returns 1 row, and the second row's projection
(installed empty) has no `f`. -/
theorem c5_type_conflict_drops_offending_field :
    (∀ (d : DataFrame) (id : RowId) (now : Int) (f : String) (v : GoValue)
      (T T2 : KeyType) (rest : List (String × GoValue)),
      mapFind? d.Keys f = some T → GoValue.reqKt v = some T2 → T2 ≠ T →
      d.Insert id now ((f, v) :: rest) = d.Insert id now rest) ∧
    ((((DataFrame.Init 60).Insert 1 0 [("f", GoValue.str "x")]).Insert 2 5
        [("f", GoValue.int 5)]).Count = 2 ∧
     ((((DataFrame.Init 60).Insert 1 0 [("f", GoValue.str "x")]).Insert 2 5
        [("f", GoValue.int 5)]).Filter noRegex 0 Operator.Equals "f"
        (FilterValue.str "x") []).Count = 1 ∧
     mapFind? (rowAt (((DataFrame.Init 60).Insert 1 0 [("f", GoValue.str "x")]).Insert 2 5
        [("f", GoValue.int 5)]) 2) "f" = none ∧
     mapFind? ((((DataFrame.Init 60).Insert 1 0 [("f", GoValue.str "x")]).Insert 2 5
        [("f", GoValue.int 5)]).Keys) "f" = some KT.String ∧
     mapFind? ((((DataFrame.Init 60).Insert 1 0 [("f", GoValue.str "x")]).Insert 2 5
        [("f", GoValue.int 5)]).Data) 2 = some []) := by
  constructor
  · intro d id now f v T T2 rest hkey hreq hne
    have hone : indexOne d "" f v id [] = (d, []) := by
      cases v with
      | str s =>
        simp only [GoValue.reqKt, Option.some.injEq] at hreq
        subst hreq
        simp [indexOne, DataFrame.addMapping, hkey, Ne.symm hne]
      | float64 x =>
        simp only [GoValue.reqKt, Option.some.injEq] at hreq
        subst hreq
        simp [indexOne, DataFrame.num, DataFrame.addMapping, hkey, Ne.symm hne]
      | int64 n =>
        simp only [GoValue.reqKt, Option.some.injEq] at hreq
        subst hreq
        simp [indexOne, DataFrame.num, DataFrame.addMapping, hkey, Ne.symm hne]
      | int n =>
        simp only [GoValue.reqKt, Option.some.injEq] at hreq
        subst hreq
        simp [indexOne, DataFrame.num, DataFrame.addMapping, hkey, Ne.symm hne]
      | bool b =>
        simp only [GoValue.reqKt, Option.some.injEq] at hreq
        subst hreq
        simp [indexOne, DataFrame.addMapping, hkey, Ne.symm hne]
      | uuid s =>
        simp only [GoValue.reqKt, Option.some.injEq] at hreq
        subst hreq
        simp [indexOne, DataFrame.addMapping, hkey, Ne.symm hne]
      | time t =>
        simp only [GoValue.reqKt, Option.some.injEq] at hreq
        subst hreq
        simp [indexOne, DataFrame.addMapping, hkey, Ne.symm hne]
      | map m => simp [GoValue.reqKt] at hreq
      | list l => simp [GoValue.reqKt] at hreq
      | nil => simp [GoValue.reqKt] at hreq
      | int8 n => simp [GoValue.reqKt] at hreq
      | int16 n => simp [GoValue.reqKt] at hreq
      | int32 n => simp [GoValue.reqKt] at hreq
      | uint n => simp [GoValue.reqKt] at hreq
      | uint8 n => simp [GoValue.reqKt] at hreq
      | uint16 n => simp [GoValue.reqKt] at hreq
      | uint32 n => simp [GoValue.reqKt] at hreq
      | uint64 n => simp [GoValue.reqKt] at hreq
      | float32 x => simp [GoValue.reqKt] at hreq
    unfold DataFrame.Insert
    simp only [indexKVs]
    rw [hone]
  · refine ⟨by decide, by decide, by decide, by decide, by decide⟩

/-- **C5 witness.** The general conjunct applied at the concrete
conflicting insert: the store already commits `f` as `String`, the
incoming value is the Go `int` 5 (commitment `Numeric`), and the insert
equals the insert of the empty remainder. -/
theorem c5_type_conflict_drops_offending_field_witness :
    ((DataFrame.Init 60).Insert 1 0 [("f", GoValue.str "x")]).Insert 2 5
      [("f", GoValue.int 5)] =
    ((DataFrame.Init 60).Insert 1 0 [("f", GoValue.str "x")]).Insert 2 5 [] :=
  c5_type_conflict_drops_offending_field.1
    ((DataFrame.Init 60).Insert 1 0 [("f", GoValue.str "x")]) 2 5 "f"
    (GoValue.int 5) KT.String KT.Numeric [] (by decide) (by decide) (by decide)

/-- **C9.** A `Filter` with a literal key that has no committed type
returns the fresh result store untouched (empty, source TTL) for every
operator; and a value whose dynamic shape does not fit the operator for
the field's committed type — here `Between` on a `Numeric` field with
anything but a 2-element `[]float64` — likewise returns the fresh empty
store (the result object carries no error field at all). -/
theorem c9_filter_unknown_key_or_bad_shape_returns_empty
    (d : DataFrame) (oracles : FilterOracles) (now : Int) (op : Operator)
    (key : String) (value : FilterValue) (opts : List (FilterOption × Bool)) :
    (isPatternKey key = false → mapFind? d.Keys key = none →
      d.Filter oracles now op key value opts = DataFrame.Init d.TTL) ∧
    (isPatternKey key = false → mapFind? d.Keys key = some KT.Numeric →
      (match value with | .floats l => l.length ≠ 2 | _ => True) →
      d.Filter oracles now Operator.Between key value opts = DataFrame.Init d.TTL) := by
  constructor
  · intro hpat hkey
    unfold DataFrame.Filter
    rw [hpat]
    simp only [Bool.false_eq_true, if_false, hkey, Option.getD_none, filterKeys]
    have h0 : filterOneKey d oracles now op value opts key 0
        (DataFrame.Init d.TTL) = .ok (DataFrame.Init d.TTL) := by
      unfold filterOneKey
      norm_num [KT.Numeric, KT.String, KT.Boolean, KT.Time]
    rw [h0]
  · intro hpat hkey hshape
    unfold DataFrame.Filter
    rw [hpat]
    simp only [Bool.false_eq_true, if_false, hkey, Option.getD_some, filterKeys]
    have h0 : filterOneKey d oracles now Operator.Between value opts key
        KT.Numeric (DataFrame.Init d.TTL) = .error (DataFrame.Init d.TTL) := by
      unfold filterOneKey
      cases value with
      | floats l =>
        match l, hshape with
        | [], _ => simp [KT.Numeric]
        | [a], _ => simp [KT.Numeric]
        | a :: b :: c :: l', _ => simp [KT.Numeric]
      | str s => simp [KT.Numeric]
      | float64 x => simp [KT.Numeric]
      | bool b => simp [KT.Numeric]
      | strs xs => simp [KT.Numeric]
      | times ts => simp [KT.Numeric]
    rw [h0]

/-- **C9 witness.** Both conjuncts at a concrete store: an unknown key
under `Equals`, and a string value for `Between` on the committed
numeric field `value`. -/
theorem c9_filter_unknown_key_or_bad_shape_returns_empty_witness :
    isPatternKey "nokey" = false ∧
    mapFind? ((DataFrame.Init 60).Insert 1 0 [("value", GoValue.float64 50)]).Keys
      "nokey" = none ∧
    ((DataFrame.Init 60).Insert 1 0 [("value", GoValue.float64 50)]).Filter noRegex
      0 Operator.Equals "nokey" (FilterValue.float64 50) [] = DataFrame.Init 60 ∧
    mapFind? ((DataFrame.Init 60).Insert 1 0 [("value", GoValue.float64 50)]).Keys
      "value" = some KT.Numeric ∧
    ((DataFrame.Init 60).Insert 1 0 [("value", GoValue.float64 50)]).Filter noRegex
      0 Operator.Between "value" (FilterValue.str "zz") [] = DataFrame.Init 60 := by
  refine ⟨by decide, by decide, ?_, by decide, ?_⟩
  · exact (c9_filter_unknown_key_or_bad_shape_returns_empty
      ((DataFrame.Init 60).Insert 1 0 [("value", GoValue.float64 50)]) noRegex 0
      Operator.Equals "nokey" (FilterValue.float64 50) []).1 (by decide) (by decide)
  · exact (c9_filter_unknown_key_or_bad_shape_returns_empty
      ((DataFrame.Init 60).Insert 1 0 [("value", GoValue.float64 50)]) noRegex 0
      Operator.Equals "value" (FilterValue.str "zz") []).2 (by decide) (by decide)
      (by trivial)

theorem mapFind?_eq_none_iff {κ α : Type} [DecidableEq κ] (l : List (κ × α))
    (k : κ) : mapFind? l k = none ↔ k ∉ l.map Prod.fst := by
  constructor
  · intro h hmem
    induction l with
    | nil => simp at hmem
    | cons p rest ih =>
      by_cases hp : p.1 = k
      · simp [mapFind?, hp] at h
      · simp only [mapFind?, hp, if_false] at h
        simp only [List.map_cons, List.mem_cons] at hmem
        rcases hmem with hmem | hmem
        · exact hp hmem.symm
        · exact ih h hmem
  · exact mapFind?_eq_none l k

theorem sum_mapSet_bump (l : List (Option Value × Nat)) (v : Option Value)
    (n : Nat) (h : mapFind? l v = some n) :
    ((mapSet l v (n + 1)).map Prod.snd).sum = (l.map Prod.snd).sum + 1 := by
  induction l with
  | nil => simp [mapFind?] at h
  | cons p rest ih =>
    by_cases hp : p.1 = v
    · simp only [mapFind?, hp, if_true, Option.some.injEq] at h
      simp [mapSet, hp, ← h]
      omega
    · simp only [mapFind?, hp, if_false] at h
      simp [mapSet, hp, ih h]
      omega

/-- One `CountUnique` step adds exactly one to the total count. -/
theorem countUnique_step_sum (count : List (Option Value × Nat))
    (v : Option Value) :
    (((match mapFind? count v with
      | none => mapSet count v 1
      | some n => mapSet count v (n + 1)) : List (Option Value × Nat)).map
        Prod.snd).sum = (count.map Prod.snd).sum + 1 := by
  cases hf : mapFind? count v with
  | none =>
    rw [mapSet_of_not_mem _ _ _ ((mapFind?_eq_none_iff _ _).mp hf)]
    simp
  | some n => exact sum_mapSet_bump count v n hf

/-- One `CountUnique` step bumps exactly its own bucket. -/
theorem countUnique_step_getD (count : List (Option Value × Nat))
    (v k : Option Value) :
    (mapFind? ((match mapFind? count v with
      | none => mapSet count v 1
      | some n => mapSet count v (n + 1)) : List (Option Value × Nat)) k).getD 0 =
      (mapFind? count k).getD 0 + (if v = k then 1 else 0) := by
  by_cases hvk : v = k
  · subst hvk
    cases hf : mapFind? count v with
    | none => simp [hf, mapFind?_mapSet_self]
    | some n => simp [hf, mapFind?_mapSet_self]
  · cases hf : mapFind? count v with
    | none => simp [hf, mapFind?_mapSet_ne _ _ _ _ (Ne.symm hvk), hvk]
    | some n => simp [hf, mapFind?_mapSet_ne _ _ _ _ (Ne.symm hvk), hvk]

/-- The `CountUnique` fold, generalised over the accumulator. -/
theorem countUnique_fold (f : String) (rows : List (RowId × Row))
    (count0 : List (Option Value × Nat)) :
    (((rows.foldl (fun count p =>
        let v := mapFind? p.2 f
        match mapFind? count v with
        | none => mapSet count v 1
        | some n => mapSet count v (n + 1)) count0)).map Prod.snd).sum =
      (count0.map Prod.snd).sum + rows.length ∧
    ∀ k : Option Value,
      (mapFind? (rows.foldl (fun count p =>
        let v := mapFind? p.2 f
        match mapFind? count v with
        | none => mapSet count v 1
        | some n => mapSet count v (n + 1)) count0) k).getD 0 =
      (mapFind? count0 k).getD 0 +
        (rows.filter (fun p => mapFind? p.2 f = k)).length := by
  induction rows generalizing count0 with
  | nil => simp
  | cons p rest ih =>
    simp only [List.foldl_cons]
    have hstep := ih ((match mapFind? count0 (mapFind? p.2 f) with
      | none => mapSet count0 (mapFind? p.2 f) 1
      | some n => mapSet count0 (mapFind? p.2 f) (n + 1)) : List (Option Value × Nat))
    constructor
    · rw [hstep.1, countUnique_step_sum]
      simp
      omega
    · intro k
      rw [hstep.2 k, countUnique_step_getD]
      by_cases hvk : mapFind? p.2 f = k
      · simp [hvk]
        omega
      · simp [hvk]

/-- **C10.** `CountUnique` buckets every row of `Data` — rows lacking
the field land under the Go `nil` key (`none`) — so the per-bucket
counts always sum to `Count()`, and the `nil` bucket's count is exactly
the number of rows without the field. -/
theorem c10_countunique_buckets_all_rows (d : DataFrame) (f : String) :
    ((d.CountUnique f).map Prod.snd).sum = d.Count ∧
    (mapFind? (d.CountUnique f) none).getD 0 =
      (d.Data.filter (fun p => (mapFind? p.2 f).isNone)).length := by
  have h := countUnique_fold f d.Data []
  constructor
  · rw [DataFrame.CountUnique, h.1]
    simp [DataFrame.Count]
  · rw [DataFrame.CountUnique, h.2 none]
    simp only [mapFind?, Option.getD_none, Nat.zero_add]
    congr 1
    apply List.filter_congr
    intro p _
    cases mapFind? p.2 f <;> simp

theorem SeqIds_Init (ttl : Int) : SeqIds (DataFrame.Init ttl) := by
  simp [SeqIds, DataFrame.Init]

theorem KeysLe_Init (ttl : Int) (K : KeysIndex) :
    KeysLe (DataFrame.Init ttl).Keys K := by
  intro k t h
  simp [DataFrame.Init, mapFind?] at h

/-- A literal-key `Filter` is the evaluation of its single resolved
field. -/
theorem Filter_literal (d : DataFrame) (oracles : FilterOracles) (now : Int)
    (op : Operator) (key : String) (value : FilterValue)
    (opts : List (FilterOption × Bool)) (kt : KeyType) (r : DataFrame)
    (hpat : isPatternKey key = false) (hkey : mapFind? d.Keys key = some kt)
    (hone : filterOneKey d oracles now op value opts key kt
      (DataFrame.Init d.TTL) = .ok r) :
    d.Filter oracles now op key value opts = r := by
  unfold DataFrame.Filter
  rw [hpat]
  simp only [Bool.false_eq_true, if_false, hkey, Option.getD_some, filterKeys, hone]

theorem decide_not_lt {α : Type} [LinearOrder α] (a b : α) :
    (!decide (a < b)) = decide (b ≤ a) := by
  by_cases h : a < b
  · simp [h, not_le.mpr h]
  · simp [h, not_lt.mp h]

theorem swap_min {α : Type} [LinearOrder α] (lo hi : α) :
    (if lo > hi then hi else lo) = min lo hi := by
  by_cases h : lo > hi
  · simp [h, min_eq_right (le_of_lt h)]
  · simp [h, min_eq_left (not_lt.mp h)]

theorem swap_max {α : Type} [LinearOrder α] (lo hi : α) :
    (if lo > hi then lo else hi) = max lo hi := by
  by_cases h : lo > hi
  · simp [h, max_eq_left (le_of_lt h)]
  · simp [h, max_eq_right (not_lt.mp h)]

theorem between_pred {α : Type} [LinearOrder α] (lo hi kv : α) :
    (!(decide (kv < if lo > hi then hi else lo) ||
       decide (kv > if lo > hi then lo else hi)))
      = (decide (min lo hi ≤ kv) && decide (kv ≤ max lo hi)) := by
  rw [swap_min, swap_max]
  by_cases h1 : kv < min lo hi
  · simp [h1, not_le.mpr h1]
  · by_cases h2 : kv > max lo hi
    · simp [h2, not_le.mpr h2]
    · simp [h1, h2, not_lt.mp h1, not_lt.mp h2]

theorem notbetween_pred {α : Type} [LinearOrder α] (lo hi kv : α) :
    (!(decide (kv ≥ if lo > hi then hi else lo) &&
       decide (kv ≤ if lo > hi then lo else hi)))
      = (!(decide (min lo hi ≤ kv) && decide (kv ≤ max lo hi))) := by
  rw [swap_min, swap_max]

theorem notbetween_time_pred {α : Type} [LinearOrder α] (lo hi kv : α) :
    (!(!decide (kv < if lo > hi then hi else lo) &&
       !decide (kv > if lo > hi then lo else hi)))
      = (!(decide (min lo hi ≤ kv) && decide (kv ≤ max lo hi))) := by
  rw [swap_min, swap_max]
  simp only [decide_not_lt]

theorem filterOneKey_num_between (d : DataFrame) (oracles : FilterOracles)
    (now : Int) (key : String) (opts : List (FilterOption × Bool)) (lo hi : Rat)
    (results : DataFrame) :
    filterOneKey d oracles now Operator.Between (FilterValue.floats [lo, hi])
      opts key KT.Numeric results =
    .ok (bucketsInsert d now
      (fun kv => !(decide (kv < if lo > hi then hi else lo) ||
        decide (kv > if lo > hi then lo else hi)))
      ((mapFind? d.Numerics key).getD []) results) := rfl

theorem filterOneKey_num_notbetween (d : DataFrame) (oracles : FilterOracles)
    (now : Int) (key : String) (opts : List (FilterOption × Bool)) (lo hi : Rat)
    (results : DataFrame) :
    filterOneKey d oracles now Operator.NotBetween (FilterValue.floats [lo, hi])
      opts key KT.Numeric results =
    .ok (bucketsInsert d now
      (fun kv => !(decide (kv ≥ if lo > hi then hi else lo) &&
        decide (kv ≤ if lo > hi then lo else hi)))
      ((mapFind? d.Numerics key).getD []) results) := rfl

theorem filterOneKey_time_between (d : DataFrame) (oracles : FilterOracles)
    (now : Int) (key : String) (opts : List (FilterOption × Bool)) (t0 t1 : Int)
    (results : DataFrame) :
    filterOneKey d oracles now Operator.Between (FilterValue.times [t0, t1])
      opts key KT.Time results =
    .ok (bucketsInsert d now
      (fun kv => !(decide (kv < if t0 > t1 then t1 else t0) ||
        decide (kv > if t0 > t1 then t0 else t1)))
      ((mapFind? d.Times key).getD []) results) := rfl

theorem filterOneKey_time_notbetween (d : DataFrame) (oracles : FilterOracles)
    (now : Int) (key : String) (opts : List (FilterOption × Bool)) (t0 t1 : Int)
    (results : DataFrame) :
    filterOneKey d oracles now Operator.NotBetween (FilterValue.times [t0, t1])
      opts key KT.Time results =
    .ok (bucketsInsert d now
      (fun kv => !(!decide (kv < if t0 > t1 then t1 else t0) &&
        !decide (kv > if t0 > t1 then t0 else t1)))
      ((mapFind? d.Times key).getD []) results) := rfl

/-- **C6.** `Between`/`NotBetween` on a committed `Numeric` field with
`[lo, hi]`, and on a committed `Time` field with `[t0, t1]`: reversed
bounds are swapped silently, the range is inclusive on both ends, and a
source row is copied into the result exactly when its indexed value `v`
satisfies `min ≤ v ≤ max` (for `NotBetween`, exactly when it does not);
concretely a store with one row `value = 50` yields that row for
`Filter(Between, value, [100, 0])` and nothing for `NotBetween`. -/
theorem c6_between_swaps_bounds_inclusive (d : DataFrame)
    (oracles : FilterOracles) (now : Int) (f : String) (lo hi : Rat)
    (t0 t1 : Int) (opts : List (FilterOption × Bool))
    (hpat : isPatternKey f = false) (hwf : WellFormed d) :
    (mapFind? d.Keys f = some KT.Numeric →
      (d.Filter oracles now Operator.Between f (FilterValue.floats [lo, hi])
        opts).Data.map Prod.snd =
        (((mapFind? d.Numerics f).getD []).filter
          (fun b => decide (min lo hi ≤ b.1) && decide (b.1 ≤ max lo hi))).flatMap
          (fun b => b.2.map (fun p => rowAt d p.1)) ∧
      (d.Filter oracles now Operator.NotBetween f (FilterValue.floats [lo, hi])
        opts).Data.map Prod.snd =
        (((mapFind? d.Numerics f).getD []).filter
          (fun b => !(decide (min lo hi ≤ b.1) && decide (b.1 ≤ max lo hi)))).flatMap
          (fun b => b.2.map (fun p => rowAt d p.1))) ∧
    (mapFind? d.Keys f = some KT.Time →
      (d.Filter oracles now Operator.Between f (FilterValue.times [t0, t1])
        opts).Data.map Prod.snd =
        (((mapFind? d.Times f).getD []).filter
          (fun b => decide (min t0 t1 ≤ b.1) && decide (b.1 ≤ max t0 t1))).flatMap
          (fun b => b.2.map (fun p => rowAt d p.1)) ∧
      (d.Filter oracles now Operator.NotBetween f (FilterValue.times [t0, t1])
        opts).Data.map Prod.snd =
        (((mapFind? d.Times f).getD []).filter
          (fun b => !(decide (min t0 t1 ≤ b.1) && decide (b.1 ≤ max t0 t1)))).flatMap
          (fun b => b.2.map (fun p => rowAt d p.1))) ∧
    ((((DataFrame.Init 60).Insert 1 0 [("value", GoValue.float64 50)]).Filter
        noRegex 0 Operator.Between "value" (FilterValue.floats [100, 0]) []).Count
        = 1 ∧
     (((DataFrame.Init 60).Insert 1 0 [("value", GoValue.float64 50)]).Filter
        noRegex 0 Operator.NotBetween "value" (FilterValue.floats [100, 0]) []).Count
        = 0) := by
  refine ⟨?_, ?_, by decide, by decide⟩
  · intro hkey
    constructor
    · rw [Filter_literal d oracles now Operator.Between f
        (FilterValue.floats [lo, hi]) opts KT.Numeric _ hpat hkey
        (filterOneKey_num_between d oracles now f opts lo hi _)]
      rw [(bucketsInsert_spec d.Keys d now _ ((mapFind? d.Numerics f).getD [])
        (DataFrame.Init d.TTL) (SeqIds_Init _) (KeysLe_Init _ _)
        (RowOk_rowAt d d.Keys rfl hwf)).1]
      simp only [DataFrame.Init, List.map_nil, List.nil_append]
      rw [show (fun (b : Rat × IdSet) =>
          !(decide (b.1 < if lo > hi then hi else lo) ||
            decide (b.1 > if lo > hi then lo else hi))) =
          (fun b => decide (min lo hi ≤ b.1) && decide (b.1 ≤ max lo hi)) from
        funext (fun b => between_pred lo hi b.1)]
    · rw [Filter_literal d oracles now Operator.NotBetween f
        (FilterValue.floats [lo, hi]) opts KT.Numeric _ hpat hkey
        (filterOneKey_num_notbetween d oracles now f opts lo hi _)]
      rw [(bucketsInsert_spec d.Keys d now _ ((mapFind? d.Numerics f).getD [])
        (DataFrame.Init d.TTL) (SeqIds_Init _) (KeysLe_Init _ _)
        (RowOk_rowAt d d.Keys rfl hwf)).1]
      simp only [DataFrame.Init, List.map_nil, List.nil_append]
      rw [show (fun (b : Rat × IdSet) =>
          !(decide (b.1 ≥ if lo > hi then hi else lo) &&
            decide (b.1 ≤ if lo > hi then lo else hi))) =
          (fun b => !(decide (min lo hi ≤ b.1) && decide (b.1 ≤ max lo hi))) from
        funext (fun b => notbetween_pred lo hi b.1)]
  · intro hkey
    constructor
    · rw [Filter_literal d oracles now Operator.Between f
        (FilterValue.times [t0, t1]) opts KT.Time _ hpat hkey
        (filterOneKey_time_between d oracles now f opts t0 t1 _)]
      rw [(bucketsInsert_spec d.Keys d now _ ((mapFind? d.Times f).getD [])
        (DataFrame.Init d.TTL) (SeqIds_Init _) (KeysLe_Init _ _)
        (RowOk_rowAt d d.Keys rfl hwf)).1]
      simp only [DataFrame.Init, List.map_nil, List.nil_append]
      rw [show (fun (b : Int × IdSet) =>
          !(decide (b.1 < if t0 > t1 then t1 else t0) ||
            decide (b.1 > if t0 > t1 then t0 else t1))) =
          (fun b => decide (min t0 t1 ≤ b.1) && decide (b.1 ≤ max t0 t1)) from
        funext (fun b => between_pred t0 t1 b.1)]
    · rw [Filter_literal d oracles now Operator.NotBetween f
        (FilterValue.times [t0, t1]) opts KT.Time _ hpat hkey
        (filterOneKey_time_notbetween d oracles now f opts t0 t1 _)]
      rw [(bucketsInsert_spec d.Keys d now _ ((mapFind? d.Times f).getD [])
        (DataFrame.Init d.TTL) (SeqIds_Init _) (KeysLe_Init _ _)
        (RowOk_rowAt d d.Keys rfl hwf)).1]
      simp only [DataFrame.Init, List.map_nil, List.nil_append]
      rw [show (fun (b : Int × IdSet) =>
          !(!decide (b.1 < if t0 > t1 then t1 else t0) &&
            !decide (b.1 > if t0 > t1 then t0 else t1))) =
          (fun b => !(decide (min t0 t1 ≤ b.1) && decide (b.1 ≤ max t0 t1))) from
        funext (fun b => notbetween_time_pred t0 t1 b.1)]

/-- **C6 witness.** The numeric branch of the theorem applied to the
one-row `value = 50` store with reversed bounds `[100, 0]`. -/
theorem c6_between_swaps_bounds_inclusive_witness :
    isPatternKey "value" = false ∧
    WellFormed ((DataFrame.Init 60).Insert 1 0 [("value", GoValue.float64 50)]) ∧
    mapFind? ((DataFrame.Init 60).Insert 1 0
      [("value", GoValue.float64 50)]).Keys "value" = some KT.Numeric ∧
    (((DataFrame.Init 60).Insert 1 0 [("value", GoValue.float64 50)]).Filter
      noRegex 0 Operator.Between "value" (FilterValue.floats [100, 0])
      []).Data.map Prod.snd =
      (((mapFind? ((DataFrame.Init 60).Insert 1 0
        [("value", GoValue.float64 50)]).Numerics "value").getD []).filter
        (fun b => decide (min (100 : Rat) 0 ≤ b.1) && decide (b.1 ≤ max (100 : Rat) 0))).flatMap
        (fun b => b.2.map (fun p =>
          rowAt ((DataFrame.Init 60).Insert 1 0 [("value", GoValue.float64 50)]) p.1)) :=
  ⟨by decide, by decide, by decide,
    ((c6_between_swaps_bounds_inclusive
      ((DataFrame.Init 60).Insert 1 0 [("value", GoValue.float64 50)]) noRegex 0
      "value" 100 0 0 0 [] (by decide) (by decide)).1 (by decide)).1⟩

theorem filterOneKey_str_equals (d : DataFrame) (oracles : FilterOracles)
    (now : Int) (key : String) (opts : List (FilterOption × Bool)) (s : String)
    (results : DataFrame) :
    filterOneKey d oracles now Operator.Equals (FilterValue.str s) opts key
      KT.String results =
    .ok (bucketsInsert d now
      (fun kv => if caseInsensitive opts then EqualsF kv.toLower s.toLower
        else EqualsF kv s)
      ((mapFind? d.Strings key).getD []) results) := rfl

/-- Evaluation of string `Equals` over a list of resolved keys, all
committed `String`: each key contributes its own matches, concatenated
in key order, with no deduplication across keys. -/
theorem filterKeys_str_equals (d : DataFrame) (oracles : FilterOracles)
    (now : Int) (s : String) (opts : List (FilterOption × Bool))
    (keys : List (String × KeyType)) (acc : DataFrame)
    (hall : ∀ p ∈ keys, p.2 = KT.String) (hseq : SeqIds acc)
    (hK : KeysLe acc.Keys d.Keys) (hrows : ∀ i, RowOk d.Keys (rowAt d i)) :
    (filterKeys d oracles now Operator.Equals (FilterValue.str s) opts keys
      acc).Data.map Prod.snd =
      acc.Data.map Prod.snd ++ keys.flatMap (fun kp =>
        (((mapFind? d.Strings kp.1).getD []).filter (fun b =>
          if caseInsensitive opts then EqualsF b.1.toLower s.toLower
          else EqualsF b.1 s)).flatMap
          (fun b => b.2.map (fun p => rowAt d p.1))) := by
  induction keys generalizing acc with
  | nil => simp [filterKeys]
  | cons kp rest ih =>
    obtain ⟨k0, kt0⟩ := kp
    have hkt0 : kt0 = KT.String := hall (k0, kt0) (by simp)
    subst hkt0
    have hunf : filterKeys d oracles now Operator.Equals (FilterValue.str s) opts
        ((k0, KT.String) :: rest) acc =
        filterKeys d oracles now Operator.Equals (FilterValue.str s) opts rest
          (bucketsInsert d now
            (fun kv => if caseInsensitive opts then EqualsF kv.toLower s.toLower
              else EqualsF kv s)
            ((mapFind? d.Strings k0).getD []) acc) := by
      simp only [filterKeys, filterOneKey_str_equals]
    rw [hunf]
    have hstep := bucketsInsert_spec d.Keys d now
      (fun kv => if caseInsensitive opts then EqualsF kv.toLower s.toLower
        else EqualsF kv s)
      ((mapFind? d.Strings k0).getD []) acc hseq hK hrows
    have hih := ih _ (fun p hp => hall p (List.mem_cons_of_mem _ hp)) hstep.2.1
      hstep.2.2.1
    rw [hih, hstep.1]
    simp

/-- **C3 amended.** When the key is a pattern that compiles, every
committed field whose name matches is evaluated and the per-field
results are concatenated *without deduplication*: a source row is copied
once for each matching field under which it satisfies the predicate
(shown for string `Equals`), so a row matching through two fields
appears twice. -/
theorem c3_regex_key_unions_once_per_field (d : DataFrame)
    (oracles : FilterOracles) (now : Int) (key s : String)
    (rex : String → Bool) (opts : List (FilterOption × Bool))
    (hpat : isPatternKey key = true) (hre : oracles.regex key = some rex)
    (hstr : ∀ p ∈ d.Keys, rex p.1 = true → p.2 = KT.String)
    (hwf : WellFormed d) :
    (d.Filter oracles now Operator.Equals key (FilterValue.str s) opts).Data.map
      Prod.snd =
      (d.Keys.filter (fun p => rex p.1)).flatMap (fun kp =>
        (((mapFind? d.Strings kp.1).getD []).filter (fun b =>
          if caseInsensitive opts then EqualsF b.1.toLower s.toLower
          else EqualsF b.1 s)).flatMap
          (fun b => b.2.map (fun p => rowAt d p.1))) := by
  unfold DataFrame.Filter
  rw [hpat]
  simp only [if_true, hre]
  rw [filterKeys_str_equals d oracles now s opts (d.Keys.filter (fun p => rex p.1))
    (DataFrame.Init d.TTL)
    (fun p hp => hstr p (List.mem_filter.mp hp).1 (List.mem_filter.mp hp).2)
    (SeqIds_Init _) (KeysLe_Init _ _) (RowOk_rowAt d d.Keys rfl hwf)]
  simp [DataFrame.Init]

/-- **C3 amended witness.** The duplication instance: pattern `^a`
matches the two string fields `a1`, `a2` of the single row, which
satisfies `Equals "x"` under both, so the characterisation yields the
row twice. -/
theorem c3_regex_key_unions_once_per_field_witness :
    isPatternKey "^a" = true ∧
    prefixAOracle.regex "^a" = some (fun s => HasPrefixF s "a") ∧
    (((DataFrame.Init 60).Insert 7 0
      [("a1", GoValue.str "x"), ("a2", GoValue.str "x")]).Filter prefixAOracle 0
      Operator.Equals "^a" (FilterValue.str "x") []).Data.map Prod.snd =
      ((((DataFrame.Init 60).Insert 7 0
        [("a1", GoValue.str "x"), ("a2", GoValue.str "x")]).Keys.filter
          (fun p => HasPrefixF p.1 "a")).flatMap (fun kp =>
        (((mapFind? (((DataFrame.Init 60).Insert 7 0
          [("a1", GoValue.str "x"), ("a2", GoValue.str "x")]).Strings)
          kp.1).getD []).filter (fun b =>
            if caseInsensitive [] then EqualsF b.1.toLower ("x".toLower)
            else EqualsF b.1 "x")).flatMap
          (fun b => b.2.map (fun p => rowAt (((DataFrame.Init 60).Insert 7 0
            [("a1", GoValue.str "x"), ("a2", GoValue.str "x")])) p.1)))) :=
  ⟨by decide, rfl,
    c3_regex_key_unions_once_per_field
      (((DataFrame.Init 60).Insert 7 0
        [("a1", GoValue.str "x"), ("a2", GoValue.str "x")])) prefixAOracle 0
      "^a" "x" (fun s => HasPrefixF s "a") [] (by decide) rfl (by decide)
      (by decide)⟩

/-- The `Append` loop, generalised: mutated source rows accumulate on
the right of `done`, and the destination receives one re-inserted copy
of each mutated row. -/
theorem append_fold (K : KeysIndex) (tag : String) (now : Int)
    (rows : List (RowId × Row)) (acc : DataFrame) (done : List (RowId × Row))
    (hseq : SeqIds acc) (hK : KeysLe acc.Keys K)
    (hrows : ∀ p ∈ rows, RowOk K (mapSet p.2 "key" (Value.str tag))) :
    (rows.foldl (fun (a : DataFrame × List (RowId × Row)) p =>
      let value := mapSet p.2 "key" (Value.str tag)
      (a.1.Insert a.1.Data.length now (Row.toGoData value),
       a.2 ++ [(p.1, value)])) (acc, done)).2 =
      done ++ rows.map (fun p => (p.1, mapSet p.2 "key" (Value.str tag))) ∧
    (rows.foldl (fun (a : DataFrame × List (RowId × Row)) p =>
      let value := mapSet p.2 "key" (Value.str tag)
      (a.1.Insert a.1.Data.length now (Row.toGoData value),
       a.2 ++ [(p.1, value)])) (acc, done)).1.Data.map Prod.snd =
      acc.Data.map Prod.snd ++
        rows.map (fun p => mapSet p.2 "key" (Value.str tag)) := by
  induction rows generalizing acc done with
  | nil => simp
  | cons p rest ih =>
    simp only [List.foldl_cons]
    have hstep := Insert_fresh K acc (mapSet p.2 "key" (Value.str tag)) now hseq
      hK (hrows p (by simp))
    have hih := ih _ (done ++ [(p.1, mapSet p.2 "key" (Value.str tag))])
      hstep.2.1 hstep.2.2.1 (fun q hq => hrows q (List.mem_cons_of_mem _ hq))
    refine ⟨?_, ?_⟩
    · rw [hih.1]
      simp
    · rw [hih.2, hstep.1]
      simp

/-- **C7 amended.** `Append(df, tag)` mutates each *source* row map in
place, setting its `"key"` field to `tag` (the source's indexes and
`Keys` are not updated), and the destination receives one re-inserted
copy of each mutated row; under a joint keys index consistent with the
mutated rows, the copies land in the destination verbatim. -/
theorem c7_append_copies_but_mutates_source (d df : DataFrame) (tag : String)
    (now : Int) (K : KeysIndex) (hseq : SeqIds d) (hK : KeysLe d.Keys K)
    (hrows : ∀ p ∈ df.Data, RowOk K (mapSet p.2 "key" (Value.str tag))) :
    (d.Append df tag now).2 =
      { df with Data :=
          df.Data.map (fun p => (p.1, mapSet p.2 "key" (Value.str tag))) } ∧
    (d.Append df tag now).1.Data.map Prod.snd =
      d.Data.map Prod.snd ++
        df.Data.map (fun p => mapSet p.2 "key" (Value.str tag)) := by
  have h := append_fold K tag now df.Data d [] hseq hK hrows
  constructor
  · show ({ df with Data := (df.Data.foldl (fun (a : DataFrame × List (RowId × Row)) p =>
      let value := mapSet p.2 "key" (Value.str tag)
      (a.1.Insert a.1.Data.length now (Row.toGoData value),
       a.2 ++ [(p.1, value)])) (d, [])).2 } : DataFrame) = _
    rw [h.1]
    simp
  · exact h.2

/-- **C7 amended witness.** One-row source `{a: "x"}` appended into an
empty destination with tag `"tag"`: the source row map now carries
`key = "tag"`, and the destination holds the mutated copy. -/
theorem c7_append_copies_but_mutates_source_witness :
    SeqIds (DataFrame.Init 60) ∧
    ((DataFrame.Init 60).Append
      ((DataFrame.Init 60).Insert 1 0 [("a", GoValue.str "x")]) "tag" 0).1.Data.map
        Prod.snd = [[("a", Value.str "x"), ("key", Value.str "tag")]] :=
  ⟨SeqIds_Init 60,
    by
      have h := (c7_append_copies_but_mutates_source (DataFrame.Init 60)
        ((DataFrame.Init 60).Insert 1 0 [("a", GoValue.str "x")]) "tag" 0
        [("a", KT.String), ("key", KT.String)] (SeqIds_Init 60)
        (KeysLe_Init 60 _) (by decide)).2
      rw [h]
      decide⟩

theorem addMapping_ok_frame (d : DataFrame) (k : String) (t : KeyType)
    (d1 : DataFrame) (h : d.addMapping k t = .ok d1) :
    d1.TTL = d.TTL ∧ d1.Version = d.Version ∧ d1.Data = d.Data ∧
    d1.ExpireAt = d.ExpireAt := by
  unfold DataFrame.addMapping at h
  cases hf : mapFind? d.Keys k with
  | none =>
    rw [hf] at h
    cases h
    simp
  | some t0 =>
    rw [hf] at h
    by_cases ht : t0 = t
    · simp only [ht, ne_eq, not_true_eq_false, if_false, Except.ok.injEq] at h
      cases h
      simp
    · simp [ht] at h

theorem num_frame (d : DataFrame) (k : String) (x : Rat) (id : RowId)
    (row : Row) :
    (d.num k x id row).1.TTL = d.TTL ∧ (d.num k x id row).1.Version = d.Version := by
  unfold DataFrame.num
  cases haddm : d.addMapping k KT.Numeric with
  | error e => simp
  | ok d1 =>
    have := addMapping_ok_frame d k KT.Numeric d1 haddm
    simp [this.1, this.2.1]

mutual

theorem indexKVs_frame (d : DataFrame) (kvs : List (String × GoValue))
    (wrapKey : String) (id : RowId) (row : Row) :
    (indexKVs d kvs wrapKey id row).1.TTL = d.TTL ∧
    (indexKVs d kvs wrapKey id row).1.Version = d.Version :=
  match kvs with
  | [] => by simp [indexKVs]
  | (k, v) :: rest => by
    have h1 := indexOne_frame d wrapKey k v id row
    have h2 := indexKVs_frame (indexOne d wrapKey k v id row).1 rest wrapKey id
      (indexOne d wrapKey k v id row).2
    exact ⟨by simp only [indexKVs]; rw [h2.1, h1.1],
      by simp only [indexKVs]; rw [h2.2, h1.2]⟩

theorem indexOne_frame (d : DataFrame) (wrapKey k : String) (v : GoValue)
    (id : RowId) (row : Row) :
    (indexOne d wrapKey k v id row).1.TTL = d.TTL ∧
    (indexOne d wrapKey k v id row).1.Version = d.Version :=
  match v with
  | .map m => by
    have h := indexKVs_frame d m (if wrapKey = "" then k else wrapKey ++ "." ++ k)
      id row
    exact ⟨by simp only [indexOne]; exact h.1, by simp only [indexOne]; exact h.2⟩
  | .list l => by
    have h := indexListElems_frame d l 0
      (if wrapKey = "" then k else wrapKey ++ "." ++ k) id row
    exact ⟨by simp only [indexOne]; exact h.1, by simp only [indexOne]; exact h.2⟩
  | .str s => by
    simp only [indexOne]
    cases haddm : DataFrame.addMapping d
        (if wrapKey = "" then k else wrapKey ++ "." ++ k) KT.String with
    | error e => simp
    | ok d1 =>
      have := addMapping_ok_frame d _ _ d1 haddm
      simp [this.1, this.2.1]
  | .float64 x => by
    simp only [indexOne]
    exact num_frame d _ x id row
  | .int64 n => by
    simp only [indexOne]
    exact num_frame d _ _ id row
  | .int n => by
    simp only [indexOne]
    exact num_frame d _ _ id row
  | .bool b => by
    simp only [indexOne]
    cases haddm : DataFrame.addMapping d
        (if wrapKey = "" then k else wrapKey ++ "." ++ k) KT.Boolean with
    | error e => simp
    | ok d1 =>
      have := addMapping_ok_frame d _ _ d1 haddm
      simp [this.1, this.2.1]
  | .uuid s => by
    simp only [indexOne]
    cases haddm : DataFrame.addMapping d
        (if wrapKey = "" then k else wrapKey ++ "." ++ k) KT.String with
    | error e => simp
    | ok d1 =>
      have := addMapping_ok_frame d _ _ d1 haddm
      simp [this.1, this.2.1]
  | .time t => by
    simp only [indexOne]
    cases haddm : DataFrame.addMapping d
        (if wrapKey = "" then k else wrapKey ++ "." ++ k) KT.Time with
    | error e => simp
    | ok d1 =>
      have := addMapping_ok_frame d _ _ d1 haddm
      simp [this.1, this.2.1]
  | .int8 n => by simp [indexOne]
  | .int16 n => by simp [indexOne]
  | .int32 n => by simp [indexOne]
  | .uint n => by simp [indexOne]
  | .uint8 n => by simp [indexOne]
  | .uint16 n => by simp [indexOne]
  | .uint32 n => by simp [indexOne]
  | .uint64 n => by simp [indexOne]
  | .float32 x => by simp [indexOne]
  | .nil => by simp [indexOne]

theorem indexListElems_frame (d : DataFrame) (l : List GoValue) (i : Nat)
    (kvKey : String) (id : RowId) (row : Row) :
    (indexListElems d l i kvKey id row).1.TTL = d.TTL ∧
    (indexListElems d l i kvKey id row).1.Version = d.Version :=
  match l with
  | [] => by simp [indexListElems]
  | x :: rest => by
    have h1 := indexOne_frame d kvKey (toString i) x id row
    have h2 := indexListElems_frame (indexOne d kvKey (toString i) x id row).1
      rest (i + 1) kvKey id (indexOne d kvKey (toString i) x id row).2
    exact ⟨by simp only [indexListElems]; rw [h2.1, h1.1],
      by simp only [indexListElems]; rw [h2.2, h1.2]⟩

end

/-- The `ImportFromJSON` rebuild loop touches neither `TTL` nor
`Version`. -/
theorem importJSON_fold_frame (pt : String → Option Int)
    (rows : List (RowId × List (String × GoValue))) (acc : DataFrame) :
    (rows.foldl (fun acc p =>
      let q := indexKVs acc (convertRow acc.Keys pt p.2) "" p.1 []
      { q.1 with Data := mapSet q.1.Data p.1 q.2 }) acc).TTL = acc.TTL ∧
    (rows.foldl (fun acc p =>
      let q := indexKVs acc (convertRow acc.Keys pt p.2) "" p.1 []
      { q.1 with Data := mapSet q.1.Data p.1 q.2 }) acc).Version = acc.Version := by
  induction rows generalizing acc with
  | nil => simp
  | cons p rest ih =>
    simp only [List.foldl_cons]
    have hf := indexKVs_frame acc (convertRow acc.Keys pt p.2) "" p.1 []
    have hih := ih { (indexKVs acc (convertRow acc.Keys pt p.2) "" p.1 []).1 with
      Data := mapSet (indexKVs acc (convertRow acc.Keys pt p.2) "" p.1 []).1.Data
        p.1 (indexKVs acc (convertRow acc.Keys pt p.2) "" p.1 []).2 }
    exact ⟨by rw [hih.1]; exact hf.1, by rw [hih.2]; exact hf.2⟩

/-- **C8.** Every load path rejects a snapshot whose version exceeds the
runtime's before touching any state (the model returns only the error),
and accepts an equal-or-lower version: the gob path installs the decoded
components, and the JSON path (whose TTL text must parse) rebuilds and
returns a store that keeps the runtime's own `Version`, adopts the
snapshot's TTL, and carries the snapshot's expiry table. -/
theorem c8_load_rejects_newer_versions (d : DataFrame)
    (pdf : PersistentDataFrame) (pd pt : String → Option Int)
    (jdf : JsonDataFrame) :
    (pdf.Version > d.Version →
      d.LoadFromReader pdf = .error "unsupported file version") ∧
    (pdf.Version ≤ d.Version →
      d.LoadFromReader pdf = .ok { d with
        Data := pdf.Data, Keys := pdf.Keys, Strings := pdf.Strings
        Numerics := pdf.Numerics, Booleans := pdf.Booleans, Times := pdf.Times
        ExpireAt := pdf.ExpireAt, TTL := pdf.TTL }) ∧
    (jdf.Version > d.Version →
      d.ImportFromJSON pd pt jdf = .error "unsupported file version") ∧
    (jdf.Version ≤ d.Version → ∀ ttl, pd jdf.TTL = some ttl →
      ∃ d2, d.ImportFromJSON pd pt jdf = .ok d2 ∧ d2.TTL = ttl ∧
        d2.Version = d.Version ∧ d2.ExpireAt = jdf.ExpireAt) := by
  refine ⟨?_, ?_, ?_, ?_⟩
  · intro h
    unfold DataFrame.LoadFromReader
    rw [if_pos h]
  · intro h
    unfold DataFrame.LoadFromReader
    rw [if_neg (not_lt.mpr h)]
  · intro h
    unfold DataFrame.ImportFromJSON
    rw [if_pos h]
  · intro h ttl httl
    unfold DataFrame.ImportFromJSON
    rw [if_neg (not_lt.mpr h), httl]
    refine ⟨_, rfl, ?_, ?_, rfl⟩
    · exact (importJSON_fold_frame pt jdf.Data _).1
    · exact (importJSON_fold_frame pt jdf.Data _).2

/-- **C8 witness.** A version-2 gob snapshot against the version-1
runtime errors; a version-1 JSON snapshot with a parsable TTL is
accepted. -/
theorem c8_load_rejects_newer_versions_witness :
    ((2 : Int) > (DataFrame.Init 60).Version ∧
      (DataFrame.Init 60).LoadFromReader
        ⟨2, [], [], [], [], [], [], [], 60⟩ = .error "unsupported file version") ∧
    ((1 : Int) ≤ (DataFrame.Init 60).Version ∧
      ∃ d2, (DataFrame.Init 60).ImportFromJSON (fun _ => some 90)
        (fun _ => none) ⟨1, [(3, [("a", GoValue.str "x")])], [("a", 1)],
          [(3, 99)], "90s"⟩ = .ok d2 ∧ d2.TTL = 90 ∧
        d2.Version = (DataFrame.Init 60).Version ∧ d2.ExpireAt = [(3, 99)]) := by
  constructor
  · exact ⟨by decide,
      (c8_load_rejects_newer_versions (DataFrame.Init 60)
        ⟨2, [], [], [], [], [], [], [], 60⟩ (fun _ => some 90) (fun _ => none)
        ⟨1, [(3, [("a", GoValue.str "x")])], [("a", 1)], [(3, 99)], "90s"⟩).1
        (by decide)⟩
  · exact ⟨by decide,
      (c8_load_rejects_newer_versions (DataFrame.Init 60)
        ⟨2, [], [], [], [], [], [], [], 60⟩ (fun _ => some 90) (fun _ => none)
        ⟨1, [(3, [("a", GoValue.str "x")])], [("a", 1)], [(3, 99)], "90s"⟩).2.2.2
        (by decide) 90 rfl⟩
